import Mathlib

/-!
Shallow embedding of the `ts-tapl` toy type checkers and proofs about them.

The repository contains three TypeScript source files, each a cumulative
variant of one syntax-directed type checker:

* `src/arith.ts` — booleans and arithmetic only;
* `src/basic.ts` — adds functions, calls, `seq`, `const`;
* `src/obj.ts` — two documents: an object-type variant (`objectNew` /
  `objectGet`) and a `seq2`/`const2` batched-statement variant.

Each namespace below embeds one variant.  TypeScript `Record<string, Type>`
environments become functions `String → Option _` (copy-on-extend is function
update); thrown errors become an `Except`-style error result; the `seq2`
variant additionally models the JavaScript runtime behaviour of the
`return lastTy!` non-null assertion (returning `null` rather than throwing)
with an explicit third outcome.
-/

set_option maxHeartbeats 1000000

namespace Obj

/-- Types of the object variant (`src/obj.ts`, first document):
`Boolean`, `Number`, `Func(params, retType)`, `Object(props)`.
A `Param` / `PropertyType` `{name, type}` record is modelled as a
`String × Ty` pair (`.1` the name, `.2` the type). -/
inductive Ty where
  | Boolean : Ty
  | Number : Ty
  | Func : List (String × Ty) → Ty → Ty
  | Object : List (String × Ty) → Ty

/-- Terms of the object variant.  The TypeScript tag `"if"` is a Lean
keyword, so the constructor is named `ite`; a `PropertyTerm` `{name, term}`
is a `String × Term` pair.  All other tags keep their source names. -/
inductive Term where
  | true : Term
  | false : Term
  | ite : Term → Term → Term → Term
  | number : Int → Term
  | add : Term → Term → Term
  | var : String → Term
  | func : List (String × Ty) → Term → Term
  | call : Term → List Term → Term
  | seq : Term → Term → Term
  | const : String → Term → Term → Term
  | objectNew : List (String × Term) → Term
  | objectGet : Term → String → Term

/-- A `TypeEnv = Record<string, Type>`: a finite map modelled as a function. -/
def TypeEnv : Type := String → Option Ty

/-- The empty environment (`{}`). -/
def emptyEnv : TypeEnv := fun _ => none

/-- Extension `{ ...env, [n]: ty }` — copy-on-extend, overriding `n`. -/
def extend (env : TypeEnv) (n : String) (ty : Ty) : TypeEnv :=
  fun m => if m = n then some ty else env m

/-- The checker's `error(message, term)` helper: an error value carrying the
message and the offending sub-term (when one was supplied). -/
structure TCErr where
  msg : String
  tm : Option Term

mutual

/-- Embeds `typeEq(ty1, ty2)` from `src/obj.ts`: structural equality, dispatching on
the tag of the *second* operand.  `typeEqParams` is the positional loop of
the `Func` case; `typeEqProps` is the per-property loop of the `Object`
case, which looks each property of `ty2` up in `props1` by *first* name
match (`Array.prototype.find`). -/
def typeEq : Ty → Ty → Bool
  | ty1, .Boolean => match ty1 with | .Boolean => Bool.true | _ => Bool.false
  | ty1, .Number => match ty1 with | .Number => Bool.true | _ => Bool.false
  | ty1, .Func params2 ret2 =>
    match ty1 with
    | .Func params1 ret1 =>
      if params1.length ≠ params2.length then Bool.false
      else typeEqParams params1 params2 && typeEq ret1 ret2
    | _ => Bool.false
  | ty1, .Object props2 =>
    match ty1 with
    | .Object props1 =>
      if props1.length ≠ props2.length then Bool.false
      else typeEqProps props1 props2
    | _ => Bool.false
termination_by _ t2 => sizeOf t2

/-- The `for` loop of the `Func` case: positional, pairwise `typeEq` of the
parameter types (names ignored).  Only reached with equal lengths. -/
def typeEqParams : List (String × Ty) → List (String × Ty) → Bool
  | [], _ => Bool.true
  | _ :: _, [] => Bool.true
  | p1 :: rest1, p2 :: rest2 => typeEq p1.2 p2.2 && typeEqParams rest1 rest2
termination_by _ l2 => sizeOf l2
decreasing_by
  all_goals simp_wf
  all_goals cases p2
  all_goals simp
  all_goals omega

/-- The `for (const prop2 of ty2.props)` loop of the `Object` case:
each property of the second operand is looked up in `props1` by first
name match, and its type compared. -/
def typeEqProps (props1 : List (String × Ty)) : List (String × Ty) → Bool
  | [] => Bool.true
  | p2 :: rest2 =>
    match props1.find? (fun p1 => p1.1 == p2.1) with
    | none => Bool.false
    | some p1 => typeEq p1.2 p2.2 && typeEqProps props1 rest2
termination_by l2 => sizeOf l2
decreasing_by
  all_goals simp_wf
  all_goals cases p2
  all_goals simp
  all_goals omega

end

mutual

/-- Embeds `typecheck(t, tyEnv)` from `src/obj.ts`: computes the type of `t` in
environment `tyEnv`, or fails with the first error thrown.  Each branch
mirrors one `case` of the source `switch`, in source order of effects. -/
def typecheck : Term → TypeEnv → Except TCErr Ty
  | .true, _ => .ok .Boolean
  | .false, _ => .ok .Boolean
  | .ite cond thn els, tyEnv =>
    match typecheck cond tyEnv with
    | .error e => .error e
    | .ok condTy =>
      match condTy with
      | .Boolean =>
        match typecheck thn tyEnv with
        | .error e => .error e
        | .ok thnTy =>
          match typecheck els tyEnv with
          | .error e => .error e
          | .ok elsTy =>
            if typeEq thnTy elsTy then .ok thnTy
            else .error ⟨"then and else must have the same type",
                         some (.ite cond thn els)⟩
      | _ => .error ⟨"boolean expected", some cond⟩
  | .number _, _ => .ok .Number
  | .add left right, tyEnv =>
    match typecheck left tyEnv with
    | .error e => .error e
    | .ok leftTy =>
      match leftTy with
      | .Number =>
        match typecheck right tyEnv with
        | .error e => .error e
        | .ok rightTy =>
          match rightTy with
          | .Number => .ok .Number
          | _ => .error ⟨"number expected", some right⟩
      | _ => .error ⟨"number expected", some left⟩
  | .var name, tyEnv =>
    match tyEnv name with
    | none => .error ⟨"unknown variable: " ++ name, some (.var name)⟩
    | some ty => .ok ty
  | .func params body, tyEnv =>
    match typecheck body (params.foldl (fun env p => extend env p.1 p.2) tyEnv) with
    | .error e => .error e
    | .ok retType => .ok (.Func params retType)
  | .call f args, tyEnv =>
    match typecheck f tyEnv with
    | .error e => .error e
    | .ok funcTy =>
      match funcTy with
      | .Func params retType =>
        if params.length ≠ args.length then
          .error ⟨"wrong number of arguments", some (.call f args)⟩
        else
          match checkArgs args params tyEnv (.call f args) with
          | .error e => .error e
          | .ok _ => .ok retType
      | _ => .error ⟨"function type expected", some (.call f args)⟩
  | .seq body rest, tyEnv =>
    match typecheck body tyEnv with
    | .error e => .error e
    | .ok _ => typecheck rest tyEnv
  | .const name init rest, tyEnv =>
    match typecheck init tyEnv with
    | .error e => .error e
    | .ok ty => typecheck rest (extend tyEnv name ty)
  | .objectNew props, tyEnv =>
    match checkProps props tyEnv with
    | .error e => .error e
    | .ok propTys => .ok (.Object propTys)
  | .objectGet obj propName, tyEnv =>
    match typecheck obj tyEnv with
    | .error e => .error e
    | .ok objectTy =>
      match objectTy with
      | .Object props =>
        match props.find? (fun prop => prop.1 == propName) with
        | none => .error ⟨"unknown property: " ++ propName,
                          some (.objectGet obj propName)⟩
        | some prop => .ok prop.2
      | _ => .error ⟨"object type expected", some (.objectGet obj propName)⟩
termination_by t _ => sizeOf t

/-- The argument loop of the `call` case: checks each argument in the
*caller's* environment and compares it positionally against the parameter
type; the first mismatch raises `parameter type mismatch` carrying the
whole `call` term `t0`.  Only reached with equal lengths. -/
def checkArgs : List Term → List (String × Ty) → TypeEnv → Term →
    Except TCErr Unit
  | [], _, _, _ => .ok ()
  | _ :: _, [], _, _ => .ok ()
  | a :: as, p :: ps, tyEnv, t0 =>
    match typecheck a tyEnv with
    | .error e => .error e
    | .ok argTy =>
      if typeEq argTy p.2 then checkArgs as ps tyEnv t0
      else .error ⟨"parameter type mismatch", some t0⟩
termination_by as _ _ _ => sizeOf as

/-- The `props.map` of the `objectNew` case: checks each property term in
order, keeping names and order (duplicates included). -/
def checkProps : List (String × Term) → TypeEnv → Except TCErr (List (String × Ty))
  | [], _ => .ok []
  | p :: rest, tyEnv =>
    match typecheck p.2 tyEnv with
    | .error e => .error e
    | .ok ty =>
      match checkProps rest tyEnv with
      | .error e => .error e
      | .ok propTys => .ok ((p.1, ty) :: propTys)
termination_by ps _ => sizeOf ps
decreasing_by
  all_goals simp_wf
  all_goals cases p
  all_goals simp
  all_goals omega

end

end Obj

namespace Basic

/-- Types of `src/basic.ts`: `Boolean`, `Number`, `Func(params, retType)`;
a `Param` `{name, type}` is a `String × Ty` pair. -/
inductive Ty where
  | Boolean : Ty
  | Number : Ty
  | Func : List (String × Ty) → Ty → Ty

mutual

/-- Embeds `typeEq(ty1, ty2)` from `src/basic.ts`: dispatches on the tag of the
second operand; `Func` compares parameter count, then the parameter types
positionally (names ignored), then the return types. -/
def typeEq : Ty → Ty → Bool
  | ty1, .Boolean => match ty1 with | .Boolean => Bool.true | _ => Bool.false
  | ty1, .Number => match ty1 with | .Number => Bool.true | _ => Bool.false
  | ty1, .Func params2 ret2 =>
    match ty1 with
    | .Func params1 ret1 =>
      if params1.length ≠ params2.length then Bool.false
      else typeEqParams params1 params2 && typeEq ret1 ret2
    | _ => Bool.false
termination_by _ t2 => sizeOf t2

/-- The positional `for` loop of the `Func` case of `typeEq`.  Only reached
with equal lengths. -/
def typeEqParams : List (String × Ty) → List (String × Ty) → Bool
  | [], _ => Bool.true
  | _ :: _, [] => Bool.true
  | p1 :: rest1, p2 :: rest2 => typeEq p1.2 p2.2 && typeEqParams rest1 rest2
termination_by _ l2 => sizeOf l2
decreasing_by
  all_goals simp_wf
  all_goals cases p2
  all_goals simp
  all_goals omega

end

end Basic

namespace Seq2

/-- Types of the seq2/const2 variant (`src/obj.ts`, second document).
The declared TypeScript type of `retType` is `Type`, but at runtime the
checker can store the `null` produced by a `seq2` body with no non-binding
statement there (`return lastTy!` is erased at runtime), so the embedding
makes the return type an `Option Ty`, `none` standing for JavaScript
`null`.  Parameter types always come from the parsed syntax and are never
`null`. -/
inductive Ty where
  | Boolean : Ty
  | Number : Ty
  | Func : List (String × Ty) → Option Ty → Ty

/-- Terms of the seq2/const2 variant.  The tag `"if"` is a Lean keyword, so
the constructor is named `ite`. -/
inductive Term where
  | true : Term
  | false : Term
  | ite : Term → Term → Term → Term
  | number : Int → Term
  | add : Term → Term → Term
  | var : String → Term
  | func : List (String × Ty) → Term → Term
  | call : Term → List Term → Term
  | seq : Term → Term → Term
  | const : String → Term → Term → Term
  | seq2 : List Term → Term
  | const2 : String → Term → Term

/-- One outcome of a `typecheck` call, as observed at the JavaScript
runtime: a `Type` value, a thrown exception (string throws, `Error`s and
the `TypeError` raised by reading `.tag` of `null` are all modelled by
their message), or the `null` return that `return lastTy!` produces when a
`seq2` body contains no non-binding statement. -/
inductive Result where
  | ok : Ty → Result
  | thrown : String → Result
  | nullRet : Result

/-- The `Type`-or-`null` value carried by a non-throwing result. -/
def Result.toVal : Result → Option Ty
  | .ok ty => some ty
  | _ => none

/-- Holds (as `true`) exactly when the call threw. -/
def Result.isError : Result → Bool
  | .thrown _ => Bool.true
  | _ => Bool.false

/-- Holds (as `true`) exactly when the call returned a `Type`. -/
def Result.isOk : Result → Bool
  | .ok _ => Bool.true
  | _ => Bool.false

/-- A `TypeEnv = Record<string, Type>`: `none` = key absent (`undefined`);
`some none` = key bound to the runtime `null`; `some (some ty)` = key
bound to a type. -/
def TypeEnv : Type := String → Option (Option Ty)

/-- The empty environment (`{}`). -/
def emptyEnv : TypeEnv := fun _ => none

/-- Extension `{ ...env, [n]: v }` — copy-on-extend, overriding `n`. -/
def extend (env : TypeEnv) (n : String) (v : Option Ty) : TypeEnv :=
  fun m => if m = n then some v else env m

mutual

/-- Embeds `typeEq(ty1, ty2)` of the seq2 variant, over possibly-`null` operands:
`switch (ty2.tag)` and the `ty1.tag` reads raise `TypeError` on `null`;
otherwise the comparison is the structural one of `src/basic.ts`. -/
def typeEq : Option Ty → Option Ty → Except String Bool
  | _, none => .error "TypeError"
  | ty1, some .Boolean =>
    match ty1 with
    | none => .error "TypeError"
    | some .Boolean => .ok Bool.true
    | some _ => .ok Bool.false
  | ty1, some .Number =>
    match ty1 with
    | none => .error "TypeError"
    | some .Number => .ok Bool.true
    | some _ => .ok Bool.false
  | ty1, some (.Func params2 ret2) =>
    match ty1 with
    | none => .error "TypeError"
    | some (.Func params1 ret1) =>
      if params1.length ≠ params2.length then .ok Bool.false
      else
        match typeEqParams params1 params2 with
        | .error e => .error e
        | .ok Bool.false => .ok Bool.false
        | .ok Bool.true => typeEq ret1 ret2
    | some _ => .ok Bool.false
termination_by _ t2 => sizeOf t2

/-- The positional parameter loop of the `Func` case of `typeEq`.  Only
reached with equal lengths. -/
def typeEqParams : List (String × Ty) → List (String × Ty) → Except String Bool
  | [], _ => .ok Bool.true
  | _ :: _, [] => .ok Bool.true
  | p1 :: rest1, p2 :: rest2 =>
    match typeEq (some p1.2) (some p2.2) with
    | .error e => .error e
    | .ok Bool.false => .ok Bool.false
    | .ok Bool.true => typeEqParams rest1 rest2
termination_by _ l2 => sizeOf l2
decreasing_by
  all_goals simp_wf
  all_goals cases p2
  all_goals simp
  all_goals omega

end

mutual

/-- Embeds `typecheck(t, tyEnv)` of the seq2/const2 variant.  Every branch mirrors
one `case` of the source `switch`; a `const2` term reaching the dispatch
itself falls to the `default` branch (`"not implemented yet"`). -/
def typecheck : Term → TypeEnv → Result
  | .true, _ => .ok .Boolean
  | .false, _ => .ok .Boolean
  | .ite cond thn els, tyEnv =>
    match typecheck cond tyEnv with
    | .thrown m => .thrown m
    | .nullRet => .thrown "TypeError"
    | .ok condTy =>
      match condTy with
      | .Boolean =>
        match typecheck thn tyEnv with
        | .thrown m => .thrown m
        | thnRes =>
          match typecheck els tyEnv with
          | .thrown m => .thrown m
          | elsRes =>
            match typeEq thnRes.toVal elsRes.toVal with
            | .error m => .thrown m
            | .ok Bool.false => .thrown "then and else must have the same type"
            | .ok Bool.true => thnRes
      | _ => .thrown "boolean expected"
  | .number _, _ => .ok .Number
  | .add left right, tyEnv =>
    match typecheck left tyEnv with
    | .thrown m => .thrown m
    | .nullRet => .thrown "TypeError"
    | .ok leftTy =>
      match leftTy with
      | .Number =>
        match typecheck right tyEnv with
        | .thrown m => .thrown m
        | .nullRet => .thrown "TypeError"
        | .ok rightTy =>
          match rightTy with
          | .Number => .ok .Number
          | _ => .thrown "number expected"
      | _ => .thrown "number expected"
  | .var name, tyEnv =>
    match tyEnv name with
    | none => .thrown ("unknown variable: " ++ name)
    | some (some ty) => .ok ty
    | some none => .nullRet
  | .func params body, tyEnv =>
    match typecheck body (params.foldl (fun env p => extend env p.1 (some p.2)) tyEnv) with
    | .thrown m => .thrown m
    | res => .ok (.Func params res.toVal)
  | .call f args, tyEnv =>
    match typecheck f tyEnv with
    | .thrown m => .thrown m
    | .nullRet => .thrown "TypeError"
    | .ok funcTy =>
      match funcTy with
      | .Func params retType =>
        if params.length ≠ args.length then .thrown "wrong number of arguments"
        else
          match checkArgs args params tyEnv with
          | .error m => .thrown m
          | .ok _ =>
            match retType with
            | some r => .ok r
            | none => .nullRet
      | _ => .thrown "function type expected"
  | .seq body rest, tyEnv =>
    match typecheck body tyEnv with
    | .thrown m => .thrown m
    | _ => typecheck rest tyEnv
  | .seq2 body, tyEnv => seq2Loop body tyEnv none
  | .const name init rest, tyEnv =>
    match typecheck init tyEnv with
    | .thrown m => .thrown m
    | res => typecheck rest (extend tyEnv name res.toVal)
  | .const2 _ _, _ => .thrown "not implemented yet"
termination_by t _ => sizeOf t

/-- The statement loop of the `seq2` case, threading the evolving local
`tyEnv` and the running `lastTy` (`none` = `null`): a `const2` statement
extends the threaded environment, any other statement's value becomes the
new `lastTy`; at the end `return lastTy!` yields the last value, i.e.
`null` when no non-binding statement updated it. -/
def seq2Loop : List Term → TypeEnv → Option Ty → Result
  | [], _, lastTy =>
    match lastTy with
    | some ty => .ok ty
    | none => .nullRet
  | .const2 name init :: rest, tyEnv, lastTy =>
    match typecheck init tyEnv with
    | .thrown m => .thrown m
    | res => seq2Loop rest (extend tyEnv name res.toVal) lastTy
  | t :: rest, tyEnv, lastTy =>
    match typecheck t tyEnv with
    | .thrown m => .thrown m
    | res => seq2Loop rest tyEnv res.toVal
termination_by l _ _ => sizeOf l

/-- The argument loop of the `call` case.  Only reached with equal
lengths; the first positional `typeEq` failure raises
`parameter type mismatch`. -/
def checkArgs : List Term → List (String × Ty) → TypeEnv → Except String Unit
  | [], _, _ => .ok ()
  | _ :: _, [], _ => .ok ()
  | a :: as, p :: ps, tyEnv =>
    match typecheck a tyEnv with
    | .thrown m => .error m
    | res =>
      match typeEq res.toVal (some p.2) with
      | .error m => .error m
      | .ok Bool.false => .error "parameter type mismatch"
      | .ok Bool.true => checkArgs as ps tyEnv
termination_by as _ _ => sizeOf as
decreasing_by
  all_goals simp_wf
  all_goals omega

end

/-- Holds (as `true`) when a statement is a `const2` binding — the
non-binding statements of a `seq2` body are exactly those for which this
is `false`. -/
def Term.isConst2 : Term → Bool
  | .const2 _ _ => Bool.true
  | _ => Bool.false

end Seq2

namespace Obj

/-- Duplicate-freedom of the names of a property (or parameter) list:
no two entries share a name. -/
def nodupKeys : List (String × Ty) → Bool
  | [] => Bool.true
  | p :: rest => !(rest.any (fun q => q.1 == p.1)) && nodupKeys rest

mutual

/-- Well-formedness of a type value as the spec's data model demands:
every `Object` type occurring in it has duplicate-free property names.
The checker can construct types outside this fragment (via `objectNew`
with repeated property names). -/
def wfTy : Ty → Bool
  | .Boolean => Bool.true
  | .Number => Bool.true
  | .Func params ret => wfTys params && wfTy ret
  | .Object props => nodupKeys props && wfTys props
termination_by t => sizeOf t

/-- All the types in a name-type list are well-formed. -/
def wfTys : List (String × Ty) → Bool
  | [] => Bool.true
  | p2 :: rest2 => wfTy p2.2 && wfTys rest2
termination_by l => sizeOf l
decreasing_by
  all_goals simp_wf
  all_goals try omega
  all_goals cases p2
  all_goals simp
  all_goals omega

end

end Obj

namespace Obj

theorem sizeOf_snd_lt_of_mem {p : String × Ty} {l : List (String × Ty)}
    (h : p ∈ l) : sizeOf p.2 < sizeOf l := by
  have h1 := List.sizeOf_lt_of_mem h
  cases p
  simp at h1 ⊢
  omega

theorem wfTys_mem {l : List (String × Ty)} (h : wfTys l = Bool.true)
    {p : String × Ty} (hp : p ∈ l) : wfTy p.2 = Bool.true := by
  induction l with
  | nil => cases hp
  | cons q rest ih =>
    simp only [wfTys, Bool.and_eq_true] at h
    rcases List.mem_cons.mp hp with rfl | hp
    · exact h.1
    · exact ih h.2 hp

theorem find_self_of_nodupKeys :
    ∀ {props : List (String × Ty)}, nodupKeys props = Bool.true →
      ∀ {p : String × Ty}, p ∈ props →
        props.find? (fun q => q.1 == p.1) = some p := by
  intro props
  induction props with
  | nil => intro _ p hp; cases hp
  | cons q rest ih =>
    intro h p hp
    simp only [nodupKeys, Bool.and_eq_true] at h
    rcases List.mem_cons.mp hp with rfl | hp
    · simp [List.find?]
    · have hne : (q.1 == p.1) = Bool.false := by
        by_contra hq
        have hq' : q.1 = p.1 := by
          cases hqb : q.1 == p.1
          · exact absurd hqb hq
          · exact eq_of_beq hqb
        have : rest.any (fun r => r.1 == q.1) = Bool.true :=
          List.any_eq_true.mpr ⟨p, hp, by simp [hq']⟩
        simp [this] at h
      simp only [List.find?, hne]
      exact ih h.2 hp

theorem eq_of_nodupKeys_mem :
    ∀ {props : List (String × Ty)}, nodupKeys props = Bool.true →
      ∀ {p r : String × Ty}, p ∈ props → r ∈ props → p.1 = r.1 → p = r := by
  intro props
  induction props with
  | nil => intro _ p r hp; cases hp
  | cons q rest ih =>
    intro h p r hp hr heq
    simp only [nodupKeys, Bool.and_eq_true] at h
    have hnone : ∀ s ∈ rest, ¬(s.1 = q.1) := by
      intro s hs hs1
      have : rest.any (fun r => r.1 == q.1) = Bool.true :=
        List.any_eq_true.mpr ⟨s, hs, by simp [hs1]⟩
      simp [this] at h
    rcases List.mem_cons.mp hp with rfl | hpr
    · rcases List.mem_cons.mp hr with rfl | hrr
      · rfl
      · exact absurd heq.symm (hnone r hrr)
    · rcases List.mem_cons.mp hr with rfl | hrr
      · exact absurd heq (hnone p hpr)
      · exact ih h.2 hpr hrr heq

theorem typeEqProps_eq_true_iff (props1 : List (String × Ty)) :
    ∀ props2 : List (String × Ty),
      (typeEqProps props1 props2 = Bool.true ↔
        ∀ p2 ∈ props2, ∃ p1, props1.find? (fun q => q.1 == p2.1) = some p1 ∧
          typeEq p1.2 p2.2 = Bool.true) := by
  intro props2
  induction props2 with
  | nil => simp [typeEqProps]
  | cons p2 rest2 ih =>
    cases hf : props1.find? (fun q => q.1 == p2.1) with
    | none =>
      simp only [typeEqProps, hf]
      constructor
      · intro h; cases h
      · intro h
        rcases h p2 (List.mem_cons_self _ _) with ⟨p1, hp1, _⟩
        rw [hf] at hp1; cases hp1
    | some p1 =>
      simp only [typeEqProps, hf, Bool.and_eq_true, ih]
      constructor
      · rintro ⟨h1, h2⟩
        intro p2' hp2'
        rcases List.mem_cons.mp hp2' with rfl | hp2'
        · exact ⟨p1, hf, h1⟩
        · exact h2 p2' hp2'
      · intro h
        refine ⟨?_, fun p2' hp2' => h p2' (List.mem_cons_of_mem _ hp2')⟩
        rcases h p2 (List.mem_cons_self _ _) with ⟨p1', hp1', ht⟩
        rw [hf] at hp1'
        cases hp1'
        exact ht

theorem typeEqParams_eq_true_iff :
    ∀ (ps1 ps2 : List (String × Ty)), ps1.length = ps2.length →
      (typeEqParams ps1 ps2 = Bool.true ↔
        List.Forall₂ (fun p q : String × Ty => typeEq p.2 q.2 = Bool.true) ps1 ps2) := by
  intro ps1
  induction ps1 with
  | nil =>
    intro ps2 hlen
    cases ps2 with
    | nil => simp [typeEqParams]
    | cons q rest => simp at hlen
  | cons p rest1 ih =>
    intro ps2 hlen
    cases ps2 with
    | nil => simp at hlen
    | cons q rest2 =>
      simp only [List.length_cons, Nat.succ.injEq] at hlen
      simp only [typeEqParams, Bool.and_eq_true, ih rest2 hlen,
        List.forall₂_cons]

theorem typeEq_refl_size :
    ∀ (n : Nat) (ty : Ty), sizeOf ty ≤ n → wfTy ty = Bool.true →
      typeEq ty ty = Bool.true := by
  intro n
  induction n with
  | zero =>
    intro ty hsize _
    exfalso
    cases ty <;> simp at hsize
  | succ n ih =>
    intro ty hsize hwf
    cases ty with
    | Boolean => simp [typeEq]
    | Number => simp [typeEq]
    | Func params ret =>
      simp only [wfTy, Bool.and_eq_true] at hwf
      have hsz : sizeOf params < sizeOf (Ty.Func params ret) := by simp; omega
      have hparams : typeEqParams params params = Bool.true := by
        rw [typeEqParams_eq_true_iff params params rfl]
        apply List.forall₂_same.mpr
        intro p hp
        have h2 := sizeOf_snd_lt_of_mem hp
        exact ih p.2 (by omega) (wfTys_mem hwf.1 hp)
      have hret : typeEq ret ret = Bool.true := by
        have : sizeOf ret < sizeOf (Ty.Func params ret) := by simp
        exact ih ret (by omega) hwf.2
      simp [typeEq, hparams, hret]
    | Object props =>
      simp only [wfTy, Bool.and_eq_true] at hwf
      have hprops : typeEqProps props props = Bool.true := by
        rw [typeEqProps_eq_true_iff]
        intro p2 hp2
        refine ⟨p2, find_self_of_nodupKeys hwf.1 hp2, ?_⟩
        have h2 := sizeOf_snd_lt_of_mem hp2
        have hsz : sizeOf props < sizeOf (Ty.Object props) := by simp
        exact ih p2.2 (by omega) (wfTys_mem hwf.2 hp2)
      simp [typeEq, hprops]

theorem typeEq_refl (ty : Ty) (h : wfTy ty = Bool.true) :
    typeEq ty ty = Bool.true :=
  typeEq_refl_size (sizeOf ty) ty (Nat.le_refl _) h

theorem checkProps_of_forall2 {env : TypeEnv} :
    ∀ {props : List (String × Term)} {ptys : List (String × Ty)},
      List.Forall₂
        (fun (pt : String × Term) (q : String × Ty) =>
          pt.1 = q.1 ∧ typecheck pt.2 env = Except.ok q.2) props ptys →
      checkProps props env = .ok ptys := by
  intro props ptys h
  induction h with
  | nil => simp [checkProps]
  | cons h1 h2 ih =>
    rename_i a b l1 l2
    simp only [checkProps, h1.2, ih]
    have hab : (a.1, b.2) = b := by
      cases a; cases b
      simp only at h1 ⊢
      simp [h1.1]
    rw [hab]

end Obj

/-- Claim C2 (counterexample): for the `objectNew` term with two properties
both named `"a"` — the first a number, the last a boolean — `objectGet "a"`
yields the type of the *first* occurrence (`Number`), not of the last
occurrence (`Boolean`) as the claim states: `Array.prototype.find` in the
`objectGet` case returns the first name match. -/
theorem c2_objectGet_returns_first_not_last :
    Obj.typecheck
        (.objectGet (.objectNew [("a", .number 1), ("a", .true)]) "a")
        Obj.emptyEnv = .ok .Number ∧
    Obj.typecheck
        (.objectGet (.objectNew [("a", .number 1), ("a", .true)]) "a")
        Obj.emptyEnv ≠ .ok .Boolean := by
  constructor
  · simp [Obj.typecheck, Obj.checkProps, Obj.emptyEnv, List.find?]
  · simp [Obj.typecheck, Obj.checkProps, Obj.emptyEnv, List.find?]

/-- Claim C2, amended (the counterexample forces "last occurrence" to become
"first occurrence"): an `objectNew` term whose property list contains two or
more properties with the same name is not rejected — if every property term
checks, the whole literal checks to an `Object` type listing all properties
in order, duplicates included — and a subsequent `objectGet` for that name
returns the type of the *first* occurrence of the name. -/
theorem c2_duplicate_props_accepted_first_occurrence_wins
    (props : List (String × Obj.Term)) (ptys : List (String × Obj.Ty))
    (name : String) (env : Obj.TypeEnv) (p : String × Obj.Ty)
    (hchecks : List.Forall₂
      (fun (pt : String × Obj.Term) (q : String × Obj.Ty) =>
        pt.1 = q.1 ∧ Obj.typecheck pt.2 env = Except.ok q.2) props ptys)
    (hdup : 2 ≤ props.countP (fun pt => pt.1 == name))
    (hfind : ptys.find? (fun q => q.1 == name) = some p) :
    Obj.typecheck (.objectNew props) env = .ok (.Object ptys) ∧
    Obj.typecheck (.objectGet (.objectNew props) name) env = .ok p.2 := by
  have hcp := Obj.checkProps_of_forall2 hchecks
  constructor
  · simp [Obj.typecheck, hcp]
  · simp [Obj.typecheck, hcp, hfind]

/-- Claim C2 witness: the amended theorem applied to the duplicate-name
object literal `{a: 1, a: true}` and lookup of `"a"`. -/
theorem c2_first_occurrence_witness :
    Obj.typecheck (.objectNew [("a", .number 1), ("a", .true)]) Obj.emptyEnv
      = .ok (.Object [("a", .Number), ("a", .Boolean)]) ∧
    Obj.typecheck
        (.objectGet (.objectNew [("a", .number 1), ("a", .true)]) "a")
        Obj.emptyEnv = .ok Obj.Ty.Number :=
  c2_duplicate_props_accepted_first_occurrence_wins
    [("a", .number 1), ("a", .true)] [("a", .Number), ("a", .Boolean)]
    "a" Obj.emptyEnv ("a", .Number)
    (by simp [Obj.typecheck])
    (by simp [List.countP, List.countP.go])
    (by simp [List.find?])

/-- Claim C3 (counterexample): the checker can construct the `Object` type
`{a: Number, a: Boolean}` (via `objectNew`, which does not reject duplicate
property names), and `typeEq` of that type with *itself* is `false`: the
lookup of the second property `a: Boolean` finds the first `a` (of type
`Number`) and the comparison fails.  So `typeEq(a, a)` is not true for
every constructible type. -/
theorem c3_typeEq_not_reflexive_on_duplicate_object :
    Obj.typecheck (.objectNew [("a", .number 1), ("a", .true)]) Obj.emptyEnv
      = .ok (.Object [("a", .Number), ("a", .Boolean)]) ∧
    Obj.typeEq (.Object [("a", .Number), ("a", .Boolean)])
        (.Object [("a", .Number), ("a", .Boolean)]) = Bool.false := by
  constructor
  · simp [Obj.typecheck, Obj.checkProps, Obj.emptyEnv]
  · simp [Obj.typeEq, Obj.typeEqProps, List.find?]

/-- Claim C3, amended (the counterexample forces restricting to types whose
object property names are duplicate-free): `typeEq(a, a)` is true for every
type `a` in which every `Object` type has duplicate-free property names —
the well-formed fragment that the spec's data model describes. -/
theorem c3_typeEq_refl_on_wellformed_types (a : Obj.Ty)
    (h : Obj.wfTy a = Bool.true) : Obj.typeEq a a = Bool.true :=
  Obj.typeEq_refl a h

/-- Claim C3 witness: reflexivity at the concrete well-formed type
`Func([x: Number], {foo: Boolean})`. -/
theorem c3_typeEq_refl_witness :
    Obj.typeEq (.Func [("x", .Number)] (.Object [("foo", .Boolean)]))
      (.Func [("x", .Number)] (.Object [("foo", .Boolean)])) = Bool.true :=
  c3_typeEq_refl_on_wellformed_types
    (.Func [("x", .Number)] (.Object [("foo", .Boolean)]))
    (by simp [Obj.wfTy, Obj.wfTys, Obj.nodupKeys])

namespace Obj

theorem nodupKeys_iff : ∀ {l : List (String × Ty)},
    nodupKeys l = Bool.true ↔ (l.map Prod.fst).Nodup := by
  intro l
  induction l with
  | nil => simp [nodupKeys]
  | cons p rest ih =>
    rw [List.map_cons, List.nodup_cons, ← ih]
    simp only [nodupKeys, Bool.and_eq_true, Bool.not_eq_true', List.any_eq_false]
    constructor
    · rintro ⟨h1, h2⟩
      refine ⟨?_, h2⟩
      intro hmem
      rcases List.mem_map.mp hmem with ⟨q, hq, hq1⟩
      have h3 := h1 q hq
      rw [hq1] at h3
      simp at h3
    · rintro ⟨h1, h2⟩
      refine ⟨?_, h2⟩
      intro q hq
      cases hb : (q.1 == p.1)
      · simp
      · exact absurd (List.mem_map.mpr ⟨q, hq, eq_of_beq hb⟩) h1

theorem wfTys_eq_true_iff {l : List (String × Ty)} :
    wfTys l = Bool.true ↔ ∀ p ∈ l, wfTy p.2 = Bool.true := by
  induction l with
  | nil => simp [wfTys]
  | cons p rest ih =>
    simp [wfTys, Bool.and_eq_true, ih, List.forall_mem_cons]

end Obj

/-- Claim C4 (counterexample): the claimed characterization of `typeEq` on
`Object` types fails for types with duplicate property names (which the
checker can construct): for `a = {x: Number, x: Boolean}` and
`b = {x: Boolean, x: Boolean}` both are `Object`, the property counts are
equal, and every property of `b` occurs by name in `a` with a `typeEq`
type, yet `typeEq(a, b)` is `false` because the per-property lookup always
finds the *first* `x` (of type `Number`). -/
theorem c4_characterization_fails_with_duplicate_names :
    Obj.typeEq (.Object [("x", .Number), ("x", .Boolean)])
        (.Object [("x", .Boolean), ("x", .Boolean)]) = Bool.false ∧
    List.length [("x", Obj.Ty.Number), ("x", Obj.Ty.Boolean)]
      = List.length [("x", Obj.Ty.Boolean), ("x", Obj.Ty.Boolean)] ∧
    ([("x", Obj.Ty.Boolean), ("x", Obj.Ty.Boolean)]).all
      (fun p2 => ([("x", Obj.Ty.Number), ("x", Obj.Ty.Boolean)]).any
        (fun p1 => p1.1 == p2.1 && Obj.typeEq p1.2 p2.2)) = Bool.true := by
  refine ⟨?_, rfl, ?_⟩
  · simp [Obj.typeEq, Obj.typeEqProps, List.find?]
  · simp [Obj.typeEq, List.all, List.any]

/-- Claim C4, amended (the counterexample forces the data-model proviso that
the first operand's property names are duplicate-free): under that proviso,
`typeEq` on two `Object` types is true iff the property counts are equal
and every property of the second occurs by name in the first with a
`typeEq` type; a non-`Object` first operand always compares `false` against
an `Object`; and `typeEq` is symmetric on `Object` types of identical
structure regardless of property order (shown for well-formed permuted
property lists). -/
theorem c4_object_typeEq_characterization_nodup
    (pa pb : List (String × Obj.Ty)) (hnodup : Obj.nodupKeys pa = Bool.true) :
    (Obj.typeEq (.Object pa) (.Object pb) = Bool.true ↔
      pa.length = pb.length ∧
        ∀ p2 ∈ pb, ∃ p1 ∈ pa, p1.1 = p2.1 ∧ Obj.typeEq p1.2 p2.2 = Bool.true) ∧
    (∀ ty : Obj.Ty, (∀ props, ty ≠ .Object props) →
      Obj.typeEq ty (.Object pb) = Bool.false) ∧
    (pa.Perm pb → Obj.wfTys pa = Bool.true →
      Obj.typeEq (.Object pa) (.Object pb) = Bool.true ∧
      Obj.typeEq (.Object pb) (.Object pa) = Bool.true) := by
  have hchar : ∀ (qa qb : List (String × Obj.Ty)),
      Obj.nodupKeys qa = Bool.true →
      (Obj.typeEq (.Object qa) (.Object qb) = Bool.true ↔
        qa.length = qb.length ∧
          ∀ p2 ∈ qb, ∃ p1 ∈ qa, p1.1 = p2.1 ∧
            Obj.typeEq p1.2 p2.2 = Bool.true) := by
    intro qa qb hnd
    constructor
    · intro h
      simp only [Obj.typeEq] at h
      split at h
      · cases h
      · rename_i hlen
        refine ⟨by omega, ?_⟩
        intro p2 hp2
        rcases (Obj.typeEqProps_eq_true_iff qa qb).mp h p2 hp2 with ⟨p1, hf, ht⟩
        have hb : (p1.1 == p2.1) = Bool.true := by
          simpa using List.find?_some hf
        exact ⟨p1, List.mem_of_find?_eq_some hf, eq_of_beq hb, ht⟩
    · rintro ⟨hlen, hforall⟩
      simp only [Obj.typeEq]
      rw [if_neg (by omega)]
      rw [Obj.typeEqProps_eq_true_iff]
      intro p2 hp2
      rcases hforall p2 hp2 with ⟨p1, hp1, hname, hteq⟩
      cases hf : qa.find? (fun q => q.1 == p2.1) with
      | none =>
        exact absurd (beq_iff_eq.mpr hname)
          (by simpa using List.find?_eq_none.mp hf p1 hp1)
      | some q =>
        have hb : (q.1 == p2.1) = Bool.true := by
          simpa using List.find?_some hf
        have hq1 : q.1 = p2.1 := eq_of_beq hb
        have hqmem : q ∈ qa := List.mem_of_find?_eq_some hf
        have : q = p1 :=
          Obj.eq_of_nodupKeys_mem hnd hqmem hp1 (hq1.trans hname.symm)
        exact ⟨q, rfl, by rw [this]; exact hteq⟩
  refine ⟨hchar pa pb hnodup, ?_, ?_⟩
  · intro ty hty
    cases ty with
    | Boolean => simp [Obj.typeEq]
    | Number => simp [Obj.typeEq]
    | Func ps r => simp [Obj.typeEq]
    | Object props => exact absurd rfl (hty props)
  · intro hperm hwf
    have hnodupb : Obj.nodupKeys pb = Bool.true :=
      Obj.nodupKeys_iff.mpr ((hperm.map Prod.fst).nodup (Obj.nodupKeys_iff.mp hnodup))
    constructor
    · refine (hchar pa pb hnodup).mpr ⟨hperm.length_eq, ?_⟩
      intro p2 hp2
      have hpa : p2 ∈ pa := hperm.mem_iff.mpr hp2
      exact ⟨p2, hpa, rfl,
        Obj.typeEq_refl _ (Obj.wfTys_eq_true_iff.mp hwf _ hpa)⟩
    · refine (hchar pb pa hnodupb).mpr ⟨hperm.length_eq.symm, ?_⟩
      intro p2 hp2
      exact ⟨p2, hperm.mem_iff.mp hp2, rfl,
        Obj.typeEq_refl _ (Obj.wfTys_eq_true_iff.mp hwf _ hp2)⟩

/-- Claim C4 witness: the amended theorem's symmetry conclusion at the
permuted well-formed property lists `{x: Number, y: Boolean}` and
`{y: Boolean, x: Number}`. -/
theorem c4_permuted_object_witness :
    Obj.typeEq (.Object [("x", .Number), ("y", .Boolean)])
      (.Object [("y", .Boolean), ("x", .Number)]) = Bool.true ∧
    Obj.typeEq (.Object [("y", .Boolean), ("x", .Number)])
      (.Object [("x", .Number), ("y", .Boolean)]) = Bool.true :=
  (c4_object_typeEq_characterization_nodup
      [("x", .Number), ("y", .Boolean)] [("y", .Boolean), ("x", .Number)]
      (by simp [Obj.nodupKeys])).2.2
    (List.Perm.swap ("y", Obj.Ty.Boolean) ("x", Obj.Ty.Number) [])
    (by simp [Obj.wfTys, Obj.wfTy])

namespace Obj

theorem checkArgs_ok {env : TypeEnv} {t0 : Term} :
    ∀ {args : List Term} {tys : List Ty} {ps : List (String × Ty)},
      List.Forall₂ (fun a ty => typecheck a env = Except.ok ty) args tys →
      List.Forall₂ (fun ty (p : String × Ty) => typeEq ty p.2 = Bool.true) tys ps →
      checkArgs args ps env t0 = .ok () := by
  intro args tys ps hargs
  induction hargs generalizing ps with
  | nil =>
    intro hteq
    cases hteq
    simp [checkArgs]
  | cons h1 hrest ih =>
    intro hteq
    cases hteq with
    | cons h2 hteq' =>
      simp only [checkArgs, h1, h2, if_true]
      exact ih hteq'

theorem checkArgs_mismatch {env : TypeEnv} {t0 : Term} :
    ∀ {args : List Term} {tys : List Ty} {ps : List (String × Ty)},
      List.Forall₂ (fun a ty => typecheck a env = Except.ok ty) args tys →
      tys.length = ps.length →
      (∃ pr ∈ tys.zip ps, typeEq pr.1 pr.2.2 = Bool.false) →
      checkArgs args ps env t0 = .error ⟨"parameter type mismatch", some t0⟩ := by
  intro args tys ps hargs
  induction hargs generalizing ps with
  | nil =>
    intro hlen hex
    rcases hex with ⟨pr, hpr, _⟩
    simp at hpr
  | cons h1 hrest ih =>
    rename_i a ty as tys'
    intro hlen hex
    cases ps with
    | nil => simp at hlen
    | cons p ps' =>
      simp only [checkArgs, h1]
      cases hteq : typeEq ty p.2 with
      | false => simp
      | true =>
        rcases hex with ⟨pr, hpr, hfalse⟩
        rcases List.mem_cons.mp (by simpa [List.zip_cons_cons] using hpr)
          with rfl | hpr'
        · rw [hteq] at hfalse; cases hfalse
        · simp only [if_true]
          exact ih (by simpa using hlen) ⟨pr, hpr', hfalse⟩

end Obj

/-- Claim C5: checking rules of `call(f, args)` — a non-`Func` callee fails
with "function type expected"; an argument-count disagreement fails with
"wrong number of arguments"; when the counts match but some positional
argument's type is not `typeEq` to the corresponding parameter's type the
check fails with "parameter type mismatch"; and when all arguments check
and agree pairwise, the result is the callee's return type. -/
theorem c5_call_checking_rules (f : Obj.Term) (args : List Obj.Term)
    (env : Obj.TypeEnv) :
    (∀ ty, Obj.typecheck f env = .ok ty → (∀ ps r, ty ≠ .Func ps r) →
      Obj.typecheck (.call f args) env
        = .error ⟨"function type expected", some (.call f args)⟩) ∧
    (∀ ps r, Obj.typecheck f env = .ok (.Func ps r) →
      ps.length ≠ args.length →
      Obj.typecheck (.call f args) env
        = .error ⟨"wrong number of arguments", some (.call f args)⟩) ∧
    (∀ ps r tys, Obj.typecheck f env = .ok (.Func ps r) →
      ps.length = args.length →
      List.Forall₂ (fun a ty => Obj.typecheck a env = Except.ok ty) args tys →
      (∃ pr ∈ tys.zip ps, Obj.typeEq pr.1 pr.2.2 = Bool.false) →
      Obj.typecheck (.call f args) env
        = .error ⟨"parameter type mismatch", some (.call f args)⟩) ∧
    (∀ ps r tys, Obj.typecheck f env = .ok (.Func ps r) →
      ps.length = args.length →
      List.Forall₂ (fun a ty => Obj.typecheck a env = Except.ok ty) args tys →
      List.Forall₂ (fun ty (p : String × Obj.Ty) => Obj.typeEq ty p.2 = Bool.true)
        tys ps →
      Obj.typecheck (.call f args) env = .ok r) := by
  refine ⟨?_, ?_, ?_, ?_⟩
  · intro ty hty hnf
    cases ty with
    | Func ps r => exact absurd rfl (hnf ps r)
    | Boolean => simp [Obj.typecheck, hty]
    | Number => simp [Obj.typecheck, hty]
    | Object props => simp [Obj.typecheck, hty]
  · intro ps r hty hlen
    simp [Obj.typecheck, hty, hlen]
  · intro ps r tys hty hlen hargs hex
    have hlen2 : tys.length = ps.length := by
      have := hargs.length_eq
      omega
    simp [Obj.typecheck, hty, hlen, Obj.checkArgs_mismatch hargs hlen2 hex]
  · intro ps r tys hty hlen hargs hteq
    simp [Obj.typecheck, hty, hlen, Obj.checkArgs_ok hargs hteq]

/-- Claim C5 witness: the mismatch conjunct at a concrete call — a
one-parameter `Number → Number` function applied to one boolean argument
fails with "parameter type mismatch" even though the counts match. -/
theorem c5_call_mismatch_witness :
    Obj.typecheck
        (.call (.func [("x", .Number)] (.var "x")) [.true])
        Obj.emptyEnv
      = .error ⟨"parameter type mismatch",
          some (.call (.func [("x", .Number)] (.var "x")) [.true])⟩ :=
  (c5_call_checking_rules (.func [("x", .Number)] (.var "x")) [.true]
      Obj.emptyEnv).2.2.1
    [("x", .Number)] .Number [.Boolean]
    (by simp [Obj.typecheck, Obj.extend, Obj.emptyEnv])
    (by simp)
    (by simp [Obj.typecheck])
    (by simp [Obj.typeEq])

/-- Claim C6: checking rules of `if(c, t, e)` — a non-`Boolean` condition
fails with "boolean expected"; branches whose types are not `typeEq` fail
with "then and else must have the same type"; otherwise the result is the
type of the then-branch. -/
theorem c6_if_checking_rules (c t e : Obj.Term) (env : Obj.TypeEnv) :
    (∀ ty, Obj.typecheck c env = .ok ty → ty ≠ .Boolean →
      Obj.typecheck (.ite c t e) env
        = .error ⟨"boolean expected", some c⟩) ∧
    (∀ tt et, Obj.typecheck c env = .ok .Boolean →
      Obj.typecheck t env = .ok tt → Obj.typecheck e env = .ok et →
      Obj.typeEq tt et = Bool.false →
      Obj.typecheck (.ite c t e) env
        = .error ⟨"then and else must have the same type", some (.ite c t e)⟩) ∧
    (∀ tt et, Obj.typecheck c env = .ok .Boolean →
      Obj.typecheck t env = .ok tt → Obj.typecheck e env = .ok et →
      Obj.typeEq tt et = Bool.true →
      Obj.typecheck (.ite c t e) env = .ok tt) := by
  refine ⟨?_, ?_, ?_⟩
  · intro ty hty hne
    cases ty with
    | Boolean => exact absurd rfl hne
    | Number => simp [Obj.typecheck, hty]
    | Func ps r => simp [Obj.typecheck, hty]
    | Object props => simp [Obj.typecheck, hty]
  · intro tt et hc ht he hteq
    simp [Obj.typecheck, hc, ht, he, hteq]
  · intro tt et hc ht he hteq
    simp [Obj.typecheck, hc, ht, he, hteq]

/-- Claim C6 witness: the branch-mismatch conjunct at the concrete term
`if true then 1 else false`. -/
theorem c6_if_mismatch_witness :
    Obj.typecheck (.ite .true (.number 1) .false) Obj.emptyEnv
      = .error ⟨"then and else must have the same type",
          some (.ite .true (.number 1) .false)⟩ :=
  (c6_if_checking_rules .true (.number 1) .false Obj.emptyEnv).2.1
    .Number .Boolean
    (by simp [Obj.typecheck])
    (by simp [Obj.typecheck])
    (by simp [Obj.typecheck])
    (by simp [Obj.typeEq])

/-- Claim C7: the environment is threaded copy-on-extend, so bindings never
leak — `seq` checks its `rest` in the same environment as its `body`; a
`const` binding is visible inside its `rest` sub-term but not outside it;
and a `const2` binding inside a `seq2` is visible to later statements of
the same sequence but not to statements outside that sequence. -/
theorem c7_scoping_copy_on_extend :
    (∀ (b r : Obj.Term) (env : Obj.TypeEnv) (tb : Obj.Ty),
      Obj.typecheck b env = .ok tb →
      Obj.typecheck (.seq b r) env = Obj.typecheck r env) ∧
    (∀ (n : String) (i : Obj.Term) (env : Obj.TypeEnv) (ti : Obj.Ty),
      Obj.typecheck i env = .ok ti →
      Obj.typecheck (.const n i (.var n)) env = .ok ti) ∧
    (∀ (n : String) (i rst : Obj.Term) (env : Obj.TypeEnv) (ty : Obj.Ty),
      Obj.typecheck (.const n i rst) env = .ok ty → env n = none →
      Obj.typecheck (.seq (.const n i rst) (.var n)) env
        = .error ⟨"unknown variable: " ++ n, some (.var n)⟩) ∧
    (∀ (n : String) (i : Seq2.Term) (env : Seq2.TypeEnv) (ti : Seq2.Ty),
      Seq2.typecheck i env = .ok ti →
      Seq2.typecheck (.seq2 [.const2 n i, .var n]) env = .ok ti) ∧
    (∀ (n : String) (i : Seq2.Term) (env : Seq2.TypeEnv) (ti : Seq2.Ty),
      env n = none → Seq2.typecheck i env = .ok ti →
      Seq2.typecheck (.seq2 [.seq2 [.const2 n i, .number 0], .var n]) env
        = .thrown ("unknown variable: " ++ n)) := by
  refine ⟨?_, ?_, ?_, ?_, ?_⟩
  · intro b r env tb hb
    simp [Obj.typecheck, hb]
  · intro n i env ti hi
    simp [Obj.typecheck, hi, Obj.extend]
  · intro n i rst env ty hconst henv
    simp [Obj.typecheck, hconst, henv]
  · intro n i env ti hi
    simp [Seq2.typecheck, Seq2.seq2Loop, hi, Seq2.Result.toVal, Seq2.extend]
  · intro n i env ti henv hi
    simp [Seq2.typecheck, Seq2.seq2Loop, hi, Seq2.Result.toVal, Seq2.extend,
      henv]

/-- Claim C7 witness: the const-does-not-escape conjunct at the concrete
program `(const x = 7; x); x` in the empty environment — the inner use of
`x` checks, the outer one fails. -/
theorem c7_const_scope_witness :
    Obj.typecheck
        (.seq (.const "x" (.number 7) (.var "x")) (.var "x")) Obj.emptyEnv
      = .error ⟨"unknown variable: " ++ "x", some (.var "x")⟩ :=
  c7_scoping_copy_on_extend.2.2.1 "x" (.number 7) (.var "x") Obj.emptyEnv
    .Number
    (by simp [Obj.typecheck, Obj.extend, Obj.emptyEnv])
    (by simp [Obj.emptyEnv])

namespace Obj

theorem extendParams_lookup :
    ∀ (params : List (String × Ty)) (env : TypeEnv) (n : String),
      (params.foldl (fun e p => extend e p.1 p.2) env) n
        = (match params.reverse.find? (fun p => p.1 == n) with
           | some p => some p.2
           | none => env n) := by
  intro params
  induction params with
  | nil => intro env n; simp
  | cons p rest ih =>
    intro env n
    rw [List.foldl_cons, ih (extend env p.1 p.2) n]
    rw [List.reverse_cons, List.find?_append]
    cases hf : rest.reverse.find? (fun q => q.1 == n) with
    | some q => simp [Option.or]
    | none =>
      simp only [Option.or]
      cases hb : (p.1 == n) with
      | true =>
        have : n = p.1 := (eq_of_beq hb).symm
        simp [List.find?, hb, extend, this]
      | false =>
        have : ¬(n = p.1) := fun h => by simp [h] at hb
        simp [List.find?, hb, extend, this]

end Obj

/-- Claim C10: a `func` whose parameter list repeats a name checks its body
in an environment where that name is bound to the declared type of the
last (rightmost) occurrence — the extension loop overwrites earlier
entries — while the resulting `Func` type still lists all declared
parameters verbatim, duplicates included. -/
theorem c10_func_duplicate_params_last_binding_wins
    (params : List (String × Obj.Ty)) (body : Obj.Term) (env : Obj.TypeEnv)
    (n : String) :
    (∀ rt, Obj.typecheck body
        (params.foldl (fun e p => Obj.extend e p.1 p.2) env) = .ok rt →
      Obj.typecheck (.func params body) env = .ok (.Func params rt)) ∧
    (2 ≤ params.countP (fun p => p.1 == n) →
      ∀ p, params.reverse.find? (fun p => p.1 == n) = some p →
        (params.foldl (fun e p => Obj.extend e p.1 p.2) env) n = some p.2) := by
  constructor
  · intro rt hbody
    simp [Obj.typecheck, hbody]
  · intro hdup p hfind
    rw [Obj.extendParams_lookup params env n, hfind]

/-- Claim C10 witness: the function `(x: Number, x: Boolean) => x` — its
body checks with `x : Boolean` (the rightmost declaration), and its type
lists both declared parameters in order. -/
theorem c10_func_duplicate_params_witness :
    Obj.typecheck (.func [("x", .Number), ("x", .Boolean)] (.var "x"))
        Obj.emptyEnv
      = .ok (.Func [("x", .Number), ("x", .Boolean)] .Boolean) ∧
    (([("x", Obj.Ty.Number), ("x", Obj.Ty.Boolean)]).foldl
        (fun e p => Obj.extend e p.1 p.2) Obj.emptyEnv) "x"
      = some Obj.Ty.Boolean :=
  ⟨(c10_func_duplicate_params_last_binding_wins
      [("x", .Number), ("x", .Boolean)] (.var "x") Obj.emptyEnv "x").1
      .Boolean (by simp [Obj.typecheck, Obj.extend]),
   (c10_func_duplicate_params_last_binding_wins
      [("x", .Number), ("x", .Boolean)] (.var "x") Obj.emptyEnv "x").2
      (by simp [List.countP, List.countP.go]) ("x", .Boolean)
      (by simp [List.find?])⟩

namespace Basic

theorem param_snd_sizeOf_lt_of_mem {p : String × Ty} {l : List (String × Ty)}
    (h : p ∈ l) : sizeOf p.2 < sizeOf l := by
  have h1 := List.sizeOf_lt_of_mem h
  cases p
  simp at h1 ⊢
  omega

theorem typeEqParams_true_iff :
    ∀ (ps1 ps2 : List (String × Ty)), ps1.length = ps2.length →
      (typeEqParams ps1 ps2 = Bool.true ↔
        List.Forall₂ (fun p q : String × Ty => typeEq p.2 q.2 = Bool.true)
          ps1 ps2) := by
  intro ps1
  induction ps1 with
  | nil =>
    intro ps2 hlen
    cases ps2 with
    | nil => simp [typeEqParams]
    | cons q rest => simp at hlen
  | cons p rest1 ih =>
    intro ps2 hlen
    cases ps2 with
    | nil => simp at hlen
    | cons q rest2 =>
      simp only [List.length_cons, Nat.succ.injEq] at hlen
      simp only [typeEqParams, Bool.and_eq_true, ih rest2 hlen,
        List.forall₂_cons]

theorem typeEq_reflexive_of_size :
    ∀ (n : Nat) (ty : Ty), sizeOf ty ≤ n → typeEq ty ty = Bool.true := by
  intro n
  induction n with
  | zero =>
    intro ty hsize
    exfalso
    cases ty <;> simp at hsize
  | succ n ih =>
    intro ty hsize
    cases ty with
    | Boolean => simp [typeEq]
    | Number => simp [typeEq]
    | Func params ret =>
      have hsz : sizeOf params < sizeOf (Ty.Func params ret) := by simp; omega
      have hparams : typeEqParams params params = Bool.true := by
        rw [typeEqParams_true_iff params params rfl]
        apply List.forall₂_same.mpr
        intro p hp
        have h2 := param_snd_sizeOf_lt_of_mem hp
        exact ih p.2 (by omega)
      have hret : typeEq ret ret = Bool.true := by
        have : sizeOf ret < sizeOf (Ty.Func params ret) := by simp
        exact ih ret (by omega)
      simp [typeEq, hparams, hret]

theorem typeEq_reflexive (ty : Ty) : typeEq ty ty = Bool.true :=
  typeEq_reflexive_of_size (sizeOf ty) ty (Nat.le_refl _)

theorem forall2_of_map_eq :
    ∀ {ps1 ps2 : List (String × Ty)}, ps1.map Prod.snd = ps2.map Prod.snd →
      List.Forall₂ (fun p q : String × Ty => typeEq p.2 q.2 = Bool.true)
        ps1 ps2 := by
  intro ps1
  induction ps1 with
  | nil =>
    intro ps2 h
    cases ps2 with
    | nil => exact .nil
    | cons q rest => simp at h
  | cons p rest1 ih =>
    intro ps2 h
    cases ps2 with
    | nil => simp at h
    | cons q rest2 =>
      simp only [List.map_cons, List.cons.injEq] at h
      exact .cons (by rw [h.1]; exact typeEq_reflexive q.2) (ih h.2)

end Basic

/-- Claim C8: `typeEq` on `Func` types of `src/basic.ts` is characterized
by: true iff the first operand is also a `Func`, the parameter counts are
equal, the parameter types are pairwise `typeEq` in positional order, and
the return types are `typeEq` — parameter names never enter the
comparison, so two `Func` types differing only in parameter names are
`typeEq`. -/
theorem c8_func_typeEq_characterization (ps2 : List (String × Basic.Ty))
    (r2 : Basic.Ty) :
    (∀ t : Basic.Ty, Basic.typeEq t (.Func ps2 r2) = Bool.true ↔
      ∃ ps1 r1, t = .Func ps1 r1 ∧ ps1.length = ps2.length ∧
        List.Forall₂
          (fun p q : String × Basic.Ty => Basic.typeEq p.2 q.2 = Bool.true)
          ps1 ps2 ∧
        Basic.typeEq r1 r2 = Bool.true) ∧
    (∀ (ps1 : List (String × Basic.Ty)) (r : Basic.Ty),
      ps1.map Prod.snd = ps2.map Prod.snd →
      Basic.typeEq (.Func ps1 r) (.Func ps2 r) = Bool.true) := by
  constructor
  · intro t
    constructor
    · intro h
      cases t with
      | Boolean => simp [Basic.typeEq] at h
      | Number => simp [Basic.typeEq] at h
      | Func ps1 r1 =>
        simp only [Basic.typeEq] at h
        split at h
        · cases h
        · rename_i hlen
          rw [Bool.and_eq_true] at h
          have hlen2 : ps1.length = ps2.length := by omega
          exact ⟨ps1, r1, rfl, hlen2,
            (Basic.typeEqParams_true_iff ps1 ps2 hlen2).mp h.1, h.2⟩
    · rintro ⟨ps1, r1, rfl, hlen, hforall, hret⟩
      simp only [Basic.typeEq]
      rw [if_neg (by omega)]
      rw [Bool.and_eq_true]
      exact ⟨(Basic.typeEqParams_true_iff ps1 ps2 hlen).mpr hforall, hret⟩
  · intro ps1 r hmap
    have hlen : ps1.length = ps2.length := by
      have := congrArg List.length hmap
      simpa using this
    simp only [Basic.typeEq]
    rw [if_neg (by omega)]
    rw [Bool.and_eq_true]
    exact ⟨(Basic.typeEqParams_true_iff ps1 ps2 hlen).mpr
        (Basic.forall2_of_map_eq hmap),
      Basic.typeEq_reflexive r⟩

/-- Claim C8 witness: the names-ignored conjunct at the concrete types
`(x: Number) => Boolean` and `(y: Number) => Boolean`, which differ only
in the parameter name. -/
theorem c8_param_names_ignored_witness :
    Basic.typeEq (.Func [("x", .Number)] .Boolean)
      (.Func [("y", .Number)] .Boolean) = Bool.true :=
  (c8_func_typeEq_characterization [("y", .Number)] .Boolean).2
    [("x", .Number)] .Boolean (by simp)

/-- Claim C9: a `const2` term reaching the dispatch of `typecheck` itself —
at top level, or anywhere other than as a direct element of a `seq2`
statement list, such as the condition of an `if` — falls to the `default`
branch and fails with "not implemented yet"; as a direct element of a
`seq2` body it is consumed by the statement loop instead and extends the
scope. -/
theorem c9_const2_outside_seq2_not_implemented :
    (∀ (n : String) (i : Seq2.Term) (env : Seq2.TypeEnv),
      Seq2.typecheck (.const2 n i) env = .thrown "not implemented yet") ∧
    (∀ (n : String) (i thn els : Seq2.Term) (env : Seq2.TypeEnv),
      Seq2.typecheck (.ite (.const2 n i) thn els) env
        = .thrown "not implemented yet") ∧
    (∀ (n : String) (i : Seq2.Term) (env : Seq2.TypeEnv) (ti : Seq2.Ty),
      Seq2.typecheck i env = .ok ti →
      Seq2.typecheck (.seq2 [.const2 n i, .number 0]) env = .ok .Number) := by
  refine ⟨?_, ?_, ?_⟩
  · intro n i env
    simp [Seq2.typecheck]
  · intro n i thn els env
    simp [Seq2.typecheck]
  · intro n i env ti hi
    simp [Seq2.typecheck, Seq2.seq2Loop, hi, Seq2.Result.toVal]

/-- Claim C9 witness: the seq2-consumption conjunct at the concrete
sequence `const2 x = 1; 0`. -/
theorem c9_const2_in_seq2_witness :
    Seq2.typecheck (.seq2 [.const2 "x" (.number 1), .number 0]) Seq2.emptyEnv
      = .ok .Number :=
  c9_const2_outside_seq2_not_implemented.2.2 "x" (.number 1) Seq2.emptyEnv
    .Number (by simp [Seq2.typecheck])

namespace Seq2

theorem seq2Loop_all_const2 :
    ∀ (stmts : List Term) (env : TypeEnv),
      (∀ s ∈ stmts, s.isConst2 = Bool.true) →
      seq2Loop stmts env none = .nullRet ∨
        ∃ m, seq2Loop stmts env none = .thrown m := by
  intro stmts
  induction stmts with
  | nil =>
    intro env _
    left
    simp [seq2Loop]
  | cons s rest ih =>
    intro env hall
    have hs : s.isConst2 = Bool.true := hall s (List.mem_cons_self _ _)
    cases s with
    | const2 n i =>
      cases hi : typecheck i env with
      | thrown m =>
        right
        exact ⟨m, by simp [seq2Loop, hi]⟩
      | ok ty =>
        simp only [seq2Loop, hi]
        exact ih _ (fun t ht => hall t (List.mem_cons_of_mem _ ht))
      | nullRet =>
        simp only [seq2Loop, hi]
        exact ih _ (fun t ht => hall t (List.mem_cons_of_mem _ ht))
    | true => simp [Term.isConst2] at hs
    | false => simp [Term.isConst2] at hs
    | ite c t e => simp [Term.isConst2] at hs
    | number k => simp [Term.isConst2] at hs
    | add l r => simp [Term.isConst2] at hs
    | var v => simp [Term.isConst2] at hs
    | func ps b => simp [Term.isConst2] at hs
    | call f as => simp [Term.isConst2] at hs
    | seq b r => simp [Term.isConst2] at hs
    | const n i r => simp [Term.isConst2] at hs
    | seq2 b => simp [Term.isConst2] at hs

end Seq2

/-- Claim C1 (counterexample): for the `seq2` term whose only statement is
the binding `const2 x = 1` (zero non-binding statements), `typecheck` does
*not* fail with an error: the non-null assertion of `return lastTy!` is
erased at runtime and the call returns JavaScript `null` — neither a
thrown error nor a type. -/
theorem c1_empty_result_seq2_returns_null :
    Seq2.typecheck (.seq2 [.const2 "x" (.number 1)]) Seq2.emptyEnv
      = .nullRet ∧
    (Seq2.typecheck (.seq2 [.const2 "x" (.number 1)]) Seq2.emptyEnv).isError
      = Bool.false ∧
    (Seq2.typecheck (.seq2 [.const2 "x" (.number 1)]) Seq2.emptyEnv).isOk
      = Bool.false := by
  refine ⟨?_, ?_, ?_⟩ <;>
    simp [Seq2.typecheck, Seq2.seq2Loop, Seq2.Result.toVal, Seq2.extend,
      Seq2.Result.isError, Seq2.Result.isOk]

/-- Claim C1, amended (the counterexample shows the checker returns `null`
rather than throwing): for every `seq2` term whose statement list contains
zero non-binding statements, `typecheck` never returns a type — it either
propagates an error thrown by some binding's initializer, or returns the
`null` result produced by the erased non-null assertion `lastTy!`, which
is not an error. -/
theorem c1_all_const2_seq2_never_yields_a_type
    (stmts : List Seq2.Term) (env : Seq2.TypeEnv)
    (hall : ∀ s ∈ stmts, s.isConst2 = Bool.true) :
    Seq2.typecheck (.seq2 stmts) env = .nullRet ∨
      ∃ m, Seq2.typecheck (.seq2 stmts) env = .thrown m := by
  have h : Seq2.typecheck (.seq2 stmts) env = Seq2.seq2Loop stmts env none := by
    simp [Seq2.typecheck]
  rw [h]
  exact Seq2.seq2Loop_all_const2 stmts env hall

/-- Claim C1 witness: the amended theorem applied to the two-binding
sequence `const2 x = 1; const2 y = true`. -/
theorem c1_two_bindings_witness :
    Seq2.typecheck (.seq2 [.const2 "x" (.number 1), .const2 "y" .true])
        Seq2.emptyEnv = .nullRet ∨
      ∃ m, Seq2.typecheck (.seq2 [.const2 "x" (.number 1), .const2 "y" .true])
        Seq2.emptyEnv = .thrown m :=
  c1_all_const2_seq2_never_yields_a_type
    [.const2 "x" (.number 1), .const2 "y" .true] Seq2.emptyEnv
    (by
      intro s hs
      rcases List.mem_cons.mp hs with rfl | hs2
      · rfl
      · rcases List.mem_cons.mp hs2 with rfl | hs3
        · rfl
        · cases hs3)
